import Mathlib

/-!
Verification of the `DynamicJsonForm` component
(`src/client/src/components/DynamicJsonForm.tsx`).

The component is a schema-driven JSON value editor.  This file gives a
shallow embedding of its data model and event handlers:

* JSON values are modelled by `JsonValue`; JSON numbers are modelled as
  exact decimals (`JNum`, the value `mantissa / 10 ^ scale`).  The host
  language's IEEE-754 doubles are thus modelled exactly on the decimal
  fragment; none of the verified properties depend on float rounding.
* `jsonParse` and `jsonStringify2` model the host `JSON.parse` and
  `JSON.stringify(v, null, 2)` on the fragment exercised by the
  component (decimal numbers without `\u` string escapes; error
  messages are this model's own, standing in for the engine-specific
  ones, since the component only forwards them verbatim).
* `jsNumber` models the host `Number(string)` coercion (ECMAScript
  ToNumber on strings) on the finite decimal / radix-prefixed fragment;
  non-finite results (`Infinity`) are outside the model.
* The component's local state (mode flag, error flag, text buffer and
  the debounce timer slot) is `ComponentState`; the host timer table is
  modelled explicitly so that `clearTimeout` / `setTimeout` semantics,
  and what survives an unmount, are visible in the state.
-/

/-- An exact decimal number: the value `mantissa / 10 ^ scale`. -/
structure JNum where
  mantissa : Int
  scale : Nat
deriving DecidableEq, Repr

/-- Strip factors of ten so that equal decimals get equal representations. -/
def stripTenFactors (m : Int) (s : Nat) : Int × Nat :=
  match s with
  | 0 => (m, 0)
  | s + 1 =>
    if m = 0 then (0, 0)
    else if m % 10 = 0 then stripTenFactors (m / 10) s
    else (m, s + 1)

/-- Canonical constructor for `JNum`. -/
def JNum.make (m : Int) (s : Nat) : JNum :=
  let p := stripTenFactors m s
  ⟨p.1, p.2⟩

/-- JSON values (`JsonValue` in the source's `jsonUtils`). -/
inductive JsonValue where
  | null : JsonValue
  | bool : Bool → JsonValue
  | num : JNum → JsonValue
  | str : String → JsonValue
  | arr : List JsonValue → JsonValue
  | obj : List (String × JsonValue) → JsonValue

/-- The JSON whitespace characters (also used by the model of trim). -/
def isWsChar (c : Char) : Bool :=
  c = ' ' || c = '\t' || c = '\n' || c = '\r'

/-- Drop leading whitespace. -/
def skipWs : List Char → List Char
  | [] => []
  | c :: cs => if isWsChar c then skipWs cs else c :: cs

def isDigitChar (c : Char) : Bool :=
  '0' ≤ c && c ≤ '9'

/-- Split off the longest leading run of decimal digits. -/
def takeDigits : List Char → List Char × List Char
  | [] => ([], [])
  | c :: cs =>
    if isDigitChar c then
      let p := takeDigits cs
      (c :: p.1, p.2)
    else ([], c :: cs)

/-- Value of a hexadecimal digit (0 for non-digits; guarded by callers). -/
def hexVal (c : Char) : Nat :=
  if isDigitChar c then c.toNat - 48
  else if 'a' ≤ c && c ≤ 'f' then c.toNat - 87
  else if 'A' ≤ c && c ≤ 'F' then c.toNat - 55
  else 0

def isRadixDigit (base : Nat) (c : Char) : Bool :=
  (isDigitChar c || ('a' ≤ c && c ≤ 'f') || ('A' ≤ c && c ≤ 'F')) && hexVal c < base

/-- Numeric value of a digit string in the given base. -/
def digitsVal (base : Nat) (ds : List Char) : Nat :=
  ds.foldl (fun a c => a * base + hexVal c) 0

/-- Build the decimal `sign · ip.fd · 10 ^ ex` from parsed digit runs. -/
def jnumOfParts (neg : Bool) (ip fd : List Char) (ex : Int) : JNum :=
  let mag : Int := (digitsVal 10 (ip ++ fd) : Nat)
  let mant : Int := if neg then -mag else mag
  let net : Int := ex - (fd.length : Int)
  if 0 ≤ net then JNum.make (mant * ((10 : Nat) ^ net.toNat : Nat)) 0
  else JNum.make mant (-net).toNat

/-- Body of a JSON string literal, after the opening quote.  `\u` escapes
are outside the modelled fragment. -/
def parseStringBody (acc : List Char) : List Char → Except String (String × List Char)
  | [] => .error ("Unterminated string in JSON")
  | '\\' :: e :: rest =>
    if e = '"' then parseStringBody ('"' :: acc) rest
    else if e = '\\' then parseStringBody ('\\' :: acc) rest
    else if e = '/' then parseStringBody ('/' :: acc) rest
    else if e = 'n' then parseStringBody ('\n' :: acc) rest
    else if e = 't' then parseStringBody ('\t' :: acc) rest
    else if e = 'r' then parseStringBody ('\r' :: acc) rest
    else if e = 'b' then parseStringBody (Char.ofNat 8 :: acc) rest
    else if e = 'f' then parseStringBody (Char.ofNat 12 :: acc) rest
    else .error ("Unsupported escape in JSON string")
  | '"' :: rest => .ok (⟨acc.reverse⟩, rest)
  | c :: rest => parseStringBody (c :: acc) rest

/-- Optional exponent part of a JSON number. -/
def parseJsonExponent : List Char → Except String (Int × List Char)
  | [] => .ok (0, [])
  | c :: rest =>
    if c = 'e' || c = 'E' then
      let p : Bool × List Char :=
        match rest with
        | '+' :: r => (false, r)
        | '-' :: r => (true, r)
        | r => (false, r)
      let d := takeDigits p.2
      if d.1 = [] then .error ("Missing exponent digits in JSON number")
      else
        let e : Int := (digitsVal 10 d.1 : Nat)
        .ok (if p.1 then -e else e, d.2)
    else .ok (0, c :: rest)

/-- A JSON number starting at the head of the input. -/
def parseJsonNumber (cs : List Char) : Except String (JNum × List Char) :=
  let p : Bool × List Char :=
    match cs with
    | '-' :: r => (true, r)
    | r => (false, r)
  let ipr := takeDigits p.2
  if ipr.1 = [] then .error ("Invalid number in JSON")
  else if ipr.1.head? = some '0' ∧ ipr.1.length > 1 then
    .error ("Leading zeros are not allowed in JSON numbers")
  else
    match ipr.2 with
    | '.' :: r2 =>
      let fdr := takeDigits r2
      if fdr.1 = [] then .error ("Missing digits after decimal point in JSON number")
      else
        match parseJsonExponent fdr.2 with
        | .error e => .error e
        | .ok (ex, rest) => .ok (jnumOfParts p.1 ipr.1 fdr.1 ex, rest)
    | r2 =>
      match parseJsonExponent r2 with
      | .error e => .error e
      | .ok (ex, rest) => .ok (jnumOfParts p.1 ipr.1 [] ex, rest)

mutual

/-- JSON value parser (fuel-indexed so the kernel can evaluate it). -/
def parseJsonValue : Nat → List Char → Except String (JsonValue × List Char)
  | 0, _ => .error ("JSON input too deeply nested")
  | fuel + 1, cs =>
    match skipWs cs with
    | [] => .error ("Unexpected end of JSON input")
    | 'n' :: 'u' :: 'l' :: 'l' :: rest => .ok (.null, rest)
    | 't' :: 'r' :: 'u' :: 'e' :: rest => .ok (.bool true, rest)
    | 'f' :: 'a' :: 'l' :: 's' :: 'e' :: rest => .ok (.bool false, rest)
    | '"' :: rest =>
      match parseStringBody [] rest with
      | .error e => .error e
      | .ok (s, r2) => .ok (.str s, r2)
    | '{' :: rest =>
      match skipWs rest with
      | '}' :: r2 => .ok (.obj [], r2)
      | r2 =>
        match parseJsonMembers fuel r2 with
        | .error e => .error e
        | .ok (ms, r3) => .ok (.obj ms, r3)
    | '[' :: rest =>
      match skipWs rest with
      | ']' :: r2 => .ok (.arr [], r2)
      | r2 =>
        match parseJsonElements fuel r2 with
        | .error e => .error e
        | .ok (es, r3) => .ok (.arr es, r3)
    | c :: rest =>
      if c = '-' || isDigitChar c then
        match parseJsonNumber (c :: rest) with
        | .error e => .error e
        | .ok (q, r2) => .ok (.num q, r2)
      else .error ("Unexpected token in JSON")

/-- Members of a JSON object, positioned at the first key. -/
def parseJsonMembers : Nat → List Char → Except String (List (String × JsonValue) × List Char)
  | 0, _ => .error ("JSON input too deeply nested")
  | fuel + 1, cs =>
    match cs with
    | '"' :: rest =>
      match parseStringBody [] rest with
      | .error e => .error e
      | .ok (key, r2) =>
        match skipWs r2 with
        | ':' :: r3 =>
          match parseJsonValue fuel r3 with
          | .error e => .error e
          | .ok (v, r4) =>
            match skipWs r4 with
            | ',' :: r5 =>
              match parseJsonMembers fuel (skipWs r5) with
              | .error e => .error e
              | .ok (ms, r6) => .ok ((key, v) :: ms, r6)
            | '}' :: r5 => .ok ([(key, v)], r5)
            | _ => .error ("Expected comma or closing brace in JSON object")
        | _ => .error ("Expected colon in JSON object")
    | _ => .error ("Expected string key in JSON object")

/-- Elements of a JSON array, positioned at the first element. -/
def parseJsonElements : Nat → List Char → Except String (List JsonValue × List Char)
  | 0, _ => .error ("JSON input too deeply nested")
  | fuel + 1, cs =>
    match parseJsonValue fuel cs with
    | .error e => .error e
    | .ok (v, r2) =>
      match skipWs r2 with
      | ',' :: r3 =>
        match parseJsonElements fuel r3 with
        | .error e => .error e
        | .ok (es, r4) => .ok (v :: es, r4)
      | ']' :: r3 => .ok ([v], r3)
      | _ => .error ("Expected comma or closing bracket in JSON array")

end

/-- Model of `JSON.parse`: a complete JSON text, with only whitespace
allowed after the value. -/
def jsonParse (s : String) : Except String JsonValue :=
  match parseJsonValue (s.data.length + 1) s.data with
  | .error e => .error e
  | .ok (v, rest) =>
    match skipWs rest with
    | [] => .ok v
    | _ => .error ("Unexpected non-whitespace character after JSON data")

/-- Decimal digits of a natural number (fuel-indexed division loop). -/
def natDigitsAux (fuel n : Nat) (acc : List Char) : List Char :=
  match fuel with
  | 0 => acc
  | f + 1 =>
    if n < 10 then Char.ofNat (48 + n) :: acc
    else natDigitsAux f (n / 10) (Char.ofNat (48 + n % 10) :: acc)

def natToChars (n : Nat) : List Char := natDigitsAux (n + 1) n []

def intToChars (i : Int) : List Char :=
  match i with
  | .ofNat n => natToChars n
  | .negSucc n => '-' :: natToChars (n + 1)

/-- Render a `JNum` the way the host renders the corresponding number:
integers without a point, other decimals with their (canonical) digits. -/
def jnumToChars (q : JNum) : List Char :=
  match q.scale with
  | 0 => intToChars q.mantissa
  | s + 1 =>
    let ds := natToChars q.mantissa.natAbs
    let ds := List.replicate (s + 2 - ds.length) '0' ++ ds
    let cut := ds.length - (s + 1)
    (if q.mantissa < 0 then ['-'] else []) ++ ds.take cut ++ '.' :: ds.drop cut

/-- Escape one character for a JSON string literal (the control-character
cases exercised by the component). -/
def escapeJsonChar (c : Char) : List Char :=
  if c = '"' then ['\\', '"']
  else if c = '\\' then ['\\', '\\']
  else if c = '\n' then ['\\', 'n']
  else if c = '\t' then ['\\', 't']
  else if c = '\r' then ['\\', 'r']
  else [c]

def quoteChars (s : String) : List Char :=
  '"' :: s.data.foldr (fun c acc => escapeJsonChar c ++ acc) ['"']

def joinChars (sep : List Char) : List (List Char) → List Char
  | [] => []
  | [x] => x
  | x :: xs => x ++ sep ++ joinChars sep xs

def indentChars (lvl : Nat) : List Char := List.replicate (2 * lvl) ' '

mutual

/-- `JSON.stringify(v, null, 2)` layout at a given indentation level. -/
def stringifyChars : Nat → JsonValue → List Char
  | _, .null => ['n', 'u', 'l', 'l']
  | _, .bool true => ['t', 'r', 'u', 'e']
  | _, .bool false => ['f', 'a', 'l', 's', 'e']
  | _, .num q => jnumToChars q
  | _, .str s => quoteChars s
  | _, .arr [] => ['[', ']']
  | lvl, .arr (it :: its) =>
    '[' :: '\n' ::
      joinChars [',', '\n']
        ((stringifyItems (lvl + 1) (it :: its)).map (fun x => indentChars (lvl + 1) ++ x)) ++
      '\n' :: indentChars lvl ++ [']']
  | _, .obj [] => ['{', '}']
  | lvl, .obj (f :: fs) =>
    '{' :: '\n' ::
      joinChars [',', '\n']
        ((stringifyFields (lvl + 1) (f :: fs)).map (fun x => indentChars (lvl + 1) ++ x)) ++
      '\n' :: indentChars lvl ++ ['}']

def stringifyItems : Nat → List JsonValue → List (List Char)
  | _, [] => []
  | lvl, v :: vs => stringifyChars lvl v :: stringifyItems lvl vs

def stringifyFields : Nat → List (String × JsonValue) → List (List Char)
  | _, [] => []
  | lvl, kv :: rest =>
    (quoteChars kv.1 ++ ':' :: ' ' :: stringifyChars lvl kv.2) :: stringifyFields lvl rest

end

/-- Model of `JSON.stringify(v, null, 2)`. -/
def jsonStringify2 (v : JsonValue) : String :=
  ⟨stringifyChars 0 v⟩

/-- Drop whitespace from both ends (model of `String.prototype.trim` on
the common whitespace characters). -/
def trimChars (cs : List Char) : List Char :=
  (skipWs (skipWs cs).reverse).reverse

def jsTrim (s : String) : String := ⟨trimChars s.data⟩

/-- Radix-prefixed integer branch of the `Number(string)` coercion. -/
def jsRadix (base : Nat) (cs : List Char) : Option JNum :=
  if cs ≠ [] ∧ cs.all (isRadixDigit base) then some (JNum.make (digitsVal base cs) 0)
  else none

/-- Trailing exponent part of a decimal `Number(string)` literal; the whole
rest of the input must be consumed. -/
def jsDecimalExponent (neg : Bool) (ip fd : List Char) : List Char → Option JNum
  | [] => some (jnumOfParts neg ip fd 0)
  | c :: rest =>
    if c = 'e' || c = 'E' then
      let p : Bool × List Char :=
        match rest with
        | '+' :: r => (false, r)
        | '-' :: r => (true, r)
        | r => (false, r)
      let d := takeDigits p.2
      if d.1 = [] ∨ d.2 ≠ [] then none
      else
        let e : Int := (digitsVal 10 d.1 : Nat)
        some (jnumOfParts neg ip fd (if p.1 then -e else e))
    else none

/-- Signed decimal branch of the `Number(string)` coercion. -/
def jsDecimal (cs : List Char) : Option JNum :=
  let p : Bool × List Char :=
    match cs with
    | '+' :: r => (false, r)
    | '-' :: r => (true, r)
    | r => (false, r)
  match p.2 with
  | '.' :: r =>
    let fdr := takeDigits r
    if fdr.1 = [] then none else jsDecimalExponent p.1 [] fdr.1 fdr.2
  | r =>
    let ipr := takeDigits r
    if ipr.1 = [] then none
    else
      match ipr.2 with
      | '.' :: r2 =>
        let fdr := takeDigits r2
        jsDecimalExponent p.1 ipr.1 fdr.1 fdr.2
      | r2 => jsDecimalExponent p.1 ipr.1 [] r2

/-- Model of the host `Number(string)` coercion (ECMAScript ToNumber on
strings): whitespace is trimmed, the empty string converts to `0`,
otherwise a signed decimal literal or an unsigned `0x`/`0o`/`0b` literal
converts to its value and anything else is NaN (`none`).  The non-finite
conversions (`Infinity`) are outside this model. -/
def jsNumber (s : String) : Option JNum :=
  let cs := trimChars s.data
  match cs with
  | [] => some (JNum.make 0 0)
  | '0' :: c :: rest =>
    if c = 'x' || c = 'X' then jsRadix 16 rest
    else if c = 'o' || c = 'O' then jsRadix 8 rest
    else if c = 'b' || c = 'B' then jsRadix 2 rest
    else jsDecimal cs
  | _ => jsDecimal cs

/-- The `required` keyword of a schema node: a boolean or a name list. -/
inductive JsonRequired where
  | bool : Bool → JsonRequired
  | names : List String → JsonRequired
deriving DecidableEq

/-- Schema nodes (`JsonSchemaType` in the source), restricted to the
keywords the component's logic reads: `type`, `properties`, `required`,
`enum`, `enumNames` and `format`.  The presentation-only keywords
(`title`, `description`, length/bound constraints) are passed through to
the host controls unchanged and are omitted here. -/
inductive JsonSchemaType where
  | mk : String → Option (List (String × JsonSchemaType)) → Option JsonRequired →
      Option (List String) → Option (List String) → Option String → JsonSchemaType

def JsonSchemaType.type : JsonSchemaType → String
  | .mk t _ _ _ _ _ => t

def JsonSchemaType.properties : JsonSchemaType → Option (List (String × JsonSchemaType))
  | .mk _ p _ _ _ _ => p

def JsonSchemaType.required : JsonSchemaType → Option JsonRequired
  | .mk _ _ r _ _ _ => r

def JsonSchemaType.enum : JsonSchemaType → Option (List String)
  | .mk _ _ _ e _ _ => e

def JsonSchemaType.enumNames : JsonSchemaType → Option (List String)
  | .mk _ _ _ _ n _ => n

def JsonSchemaType.format : JsonSchemaType → Option String
  | .mk _ _ _ _ _ f => f

/-- A scalar schema node with only its `type` set. -/
def scalarSchema (t : String) : JsonSchemaType :=
  .mk t none none none none none

/-- The scalar types the structured editor supports (source line 17). -/
def supportedTypes : List String :=
  ["string", "number", "integer", "boolean", "null"]

/-- `isSimpleObject` (source lines 16-23): a scalar type, or an object
all of whose declared properties are scalars (`schema.properties ?? {}`). -/
def isSimpleObject (schema : JsonSchemaType) : Bool :=
  if supportedTypes.contains schema.type then true
  else if schema.type ≠ "object" then false
  else (schema.properties.getD []).all (fun p => supportedTypes.contains p.2.type)

/-- `isOnlyJSON` (source line 31). -/
def isOnlyJSON (schema : JsonSchemaType) : Bool := !isSimpleObject schema

/-- The mode-toggle button is rendered iff `!isOnlyJSON` (source line 377). -/
def toggleButtonRendered (schema : JsonSchemaType) : Bool := !isOnlyJSON schema

/-- `isFieldRequired` (source lines 141-149).  In the source it is a
closure inside `renderFormFields` over the root `schema` prop; only the
root schema's `required` and the last path segment are consulted. -/
def isFieldRequired (schema : JsonSchemaType) (fieldPath : List String) : Bool :=
  match schema.required with
  | some (.bool b) => b
  | some (.names names) =>
    match fieldPath.getLast? with
    | some last => names.contains last
    | none => false
  | none => false

/-- `shouldUseJsonMode` (source lines 354-356): an object schema with no
declared properties. -/
def shouldUseJsonMode (schema : JsonSchemaType) : Bool :=
  if schema.type = "object" then
    match schema.properties with
    | none => true
    | some props => props.isEmpty
  else false

/-- The effect at source lines 358-362: force raw-JSON mode when
`shouldUseJsonMode` holds and the mode flag is off.  Returns the mode
flag after the effect ran. -/
def forceJsonModeEffect (schema : JsonSchemaType) (isJsonMode : Bool) : Bool :=
  if shouldUseJsonMode schema = true ∧ isJsonMode = false then true else isJsonMode

/-- Modelled from the spec: `generateDefaultValue` lives in
`src/client/src/lib/utils/json/schemaUtils.ts`, which is not part of the
provided sources.  The spec describes it as producing a schema-conformant
placeholder value; the exact shape is immaterial to the claims, which
only forward its result. -/
def generateDefaultValue (schema : JsonSchemaType) : JsonValue :=
  match schema.type with
  | "string" => .str ""
  | "number" => .num (JNum.make 0 0)
  | "integer" => .num (JNum.make 0 0)
  | "boolean" => .bool false
  | "array" => .arr []
  | "object" => .obj []
  | _ => .null

/-- The host `??` operator: `none` models `undefined`, and JSON `null`
also selects the fallback. -/
def jsCoalesce (v : Option JsonValue) (d : JsonValue) : JsonValue :=
  match v with
  | none => d
  | some .null => d
  | some x => x

def lookupField (fields : List (String × JsonValue)) (k : String) : Option JsonValue :=
  match fields with
  | [] => none
  | kv :: rest => if kv.1 = k then some kv.2 else lookupField rest k

/-- Replace (or, for `none`, remove) the binding of `k`; insert at the
end when absent. -/
def setFieldList (fields : List (String × JsonValue)) (k : String) (v : Option JsonValue) :
    List (String × JsonValue) :=
  match fields with
  | [] =>
    match v with
    | some x => [(k, x)]
    | none => []
  | kv :: rest =>
    if kv.1 = k then
      match v with
      | some y => (k, y) :: rest
      | none => rest
    else kv :: setFieldList rest k v

/-- Modelled from the spec: `updateValueAtPath` lives in
`src/client/src/lib/utils/json/jsonUtils.ts`, which is not part of the
provided sources.  Per the spec it returns a copy of `root` with the
location at `path` replaced by `newValue`, and must fail (throw) rather
than silently corrupt on an invalid path; here a path step into a
non-object value fails.  `none` models the host `undefined`. -/
def updateValueAtPath (root : Option JsonValue) (path : List String)
    (newValue : Option JsonValue) : Except String (Option JsonValue) :=
  match path with
  | [] => .ok newValue
  | k :: rest =>
    match root with
    | some (.obj fields) =>
      match updateValueAtPath (lookupField fields k) rest newValue with
      | .ok sub => .ok (some (.obj (setFieldList fields k sub)))
      | .error e => .error e
    | _ => .error ("Cannot update a property of a non-object value")

/-- The component's local state together with the host timer table.
`liveTimers` holds `(id, fireTime, payload)` for every `setTimeout` this
instance has scheduled and not yet cancelled; `timeoutRef` is the ref of
source line 42. -/
structure ComponentState where
  isJsonMode : Bool
  jsonError : Option String
  rawJsonValue : String
  nextId : Nat
  liveTimers : List (Nat × Nat × String)
  timeoutRef : Option Nat

/-- `clearTimeout`: drop the timer with the given id. -/
def clearTimeoutTimers (timers : List (Nat × Nat × String)) (id : Nat) :
    List (Nat × Nat × String) :=
  timers.filter (fun t => t.1 != id)

/-- `debouncedUpdateParent` (source lines 45-64): cancel the pending
timer held in the ref, if any, and schedule a parse of `jsonString`
300 ms from `now`. -/
def debouncedUpdateParent (now : Nat) (jsonString : String) (st : ComponentState) :
    ComponentState :=
  let timers :=
    match st.timeoutRef with
    | some id => clearTimeoutTimers st.liveTimers id
    | none => st.liveTimers
  { st with
    liveTimers := timers ++ [(st.nextId, now + 300, jsonString)],
    timeoutRef := some st.nextId,
    nextId := st.nextId + 1 }

/-- The raw-editor `onChange` (source lines 387-393): store the text
verbatim, then debounce. -/
def jsonEditorOnChange (now : Nat) (newValue : String) (st : ComponentState) :
    ComponentState :=
  debouncedUpdateParent now newValue { st with rawJsonValue := newValue }

/-- A sequence of raw-text edits `(time, text)` applied in order. -/
def processEdits (edits : List (Nat × String)) (st : ComponentState) : ComponentState :=
  match edits with
  | [] => st
  | e :: rest => processEdits rest (jsonEditorOnChange e.1 e.2 st)

/-- The parse-driven `onChange` deliveries the owner will receive from the
currently pending timers, as `(arrivalTime, value)`: on firing, the timer
body parses its payload and forwards only a successful parse
(source lines 53-61). -/
def deliveredUpdates (st : ComponentState) : List (Nat × JsonValue) :=
  st.liveTimers.filterMap (fun t =>
    match jsonParse t.2.2 with
    | .ok v => some (t.2.1, v)
    | .error _ => none)

/-- Initial component state (source lines 31-42). -/
def initState (schema : JsonSchemaType) (value : Option JsonValue) : ComponentState :=
  { isJsonMode := !isSimpleObject schema,
    jsonError := none,
    rawJsonValue := jsonStringify2 (jsCoalesce value (generateDefaultValue schema)),
    nextId := 0,
    liveTimers := [],
    timeoutRef := none }

/-- The cleanup functions the component's effects hand to the host:
neither `useEffect` (source lines 67-71 and 358-362) returns a cleanup,
so this list is empty and in particular no `clearTimeout` runs on
teardown. -/
def effectCleanups : List (ComponentState → ComponentState) := []

/-- Teardown of the instance: run every registered effect cleanup. -/
def unmountComponent (st : ComponentState) : ComponentState :=
  effectCleanups.foldl (fun s f => f s) st

/-- `handleSwitchToFormMode` (source lines 73-92).  Returns the new state
and the list of values forwarded to the owner via `onChange`. -/
def handleSwitchToFormMode (schema : JsonSchemaType) (value : Option JsonValue)
    (st : ComponentState) : ComponentState × List JsonValue :=
  if st.isJsonMode then
    match jsonParse st.rawJsonValue with
    | .ok parsed => ({ st with isJsonMode := false }, [parsed])
    | .error err => ({ st with jsonError := some err }, [])
  else
    ({ st with
        rawJsonValue := jsonStringify2 (jsCoalesce value (generateDefaultValue schema)),
        isJsonMode := true }, [])

/-- `formatJson` (source lines 94-107). -/
def formatJson (now : Nat) (st : ComponentState) : ComponentState :=
  let jsonStr := jsTrim st.rawJsonValue
  if jsonStr = "" then st
  else
    match jsonParse jsonStr with
    | .ok v =>
      let formatted := jsonStringify2 v
      { debouncedUpdateParent now formatted { st with rawJsonValue := formatted } with
        jsonError := none }
    | .error err => { st with jsonError := some err }

/-- `handleFieldChange` (source lines 339-352).  Returns the value
forwarded to the owner via `onChange` and the console log entry, if any:
an empty path forwards `fieldValue` itself; otherwise the path update is
attempted and a failure is caught, logged, and the previous value
re-forwarded. -/
def handleFieldChange (value : Option JsonValue) (path : List String)
    (fieldValue : Option JsonValue) : Option JsonValue × Option String :=
  match path with
  | [] => (fieldValue, none)
  | _ :: _ =>
    match updateValueAtPath value path fieldValue with
    | .ok newValue => (newValue, none)
    | .error e => (value, some ("Failed to update form value: " ++ e))

/-- What a leaf edit handler does: at most one `handleFieldChange`
invocation (the path and the committed value, `none` modelling the host
`undefined`) and at most one `setJsonError` invocation. -/
structure EditOutcome where
  commit : Option (List String × Option JsonValue) := none
  errorSet : Option (Option String) := none

/-- The owner's value after an edit outcome: an absent commit leaves the
last committed value in place. -/
def applyCommit (value : Option JsonValue) (c : Option (List String × Option JsonValue)) :
    Option JsonValue :=
  match c with
  | none => value
  | some pv => (handleFieldChange value pv.1 pv.2).1

/-- The `onChange` handler of a `number` leaf field (source lines
276-286): empty text on a non-required field commits `undefined`;
otherwise `Number(val)` is taken and committed unless it is NaN. -/
def numberFieldOnChange (path : List String) (fieldRequired : Bool) (val : String) :
    EditOutcome :=
  if val = "" ∧ fieldRequired = false then { commit := some (path, none) }
  else
    match jsNumber val with
    | some n => { commit := some (path, some (.num n)) }
    | none => {}

/-- The `onChange` handler of the depth-limited nested `JsonEditor`
(source lines 127-135): parse, and on success commit at `path` and clear
the shared error; on failure set the shared error and do not commit. -/
def nestedEditorOnChange (path : List String) (newValue : String) : EditOutcome :=
  match jsonParse newValue with
  | .ok parsed => { commit := some (path, some parsed), errorSet := some none }
  | .error err => { errorSet := some (some err) }

/-- The `format` shorthand of a string control (source lines 231-248). -/
def inputTypeFor (format : Option String) : String :=
  match format with
  | some "email" => "email"
  | some "uri" => "url"
  | some "date" => "date"
  | some "date-time" => "datetime-local"
  | _ => "text"

/-- The control `renderFieldInput` (source lines 198-337) produces for a
leaf schema, keeping the data its edit handler closes over. -/
inductive FieldControl where
  | selectInput : List String → Option (List String) → List String → Bool → FieldControl
  | textInput : String → List String → Bool → FieldControl
  | numberInput : List String → Bool → FieldControl
  | integerInput : List String → Bool → FieldControl
  | checkboxInput : List String → Bool → FieldControl
  | emptyControl : FieldControl

/-- `renderFieldInput`: select the control from the leaf type.  An `enum`
keyword (even an empty list, which is truthy in the host) selects the
closed choice; unknown types render nothing. -/
def renderFieldInput (propSchema : JsonSchemaType) (path : List String)
    (fieldRequired : Bool) : FieldControl :=
  match propSchema.type with
  | "string" =>
    match propSchema.enum with
    | some options => .selectInput options propSchema.enumNames path fieldRequired
    | none => .textInput (inputTypeFor propSchema.format) path fieldRequired
  | "number" => .numberInput path fieldRequired
  | "integer" => .integerInput path fieldRequired
  | "boolean" => .checkboxInput path fieldRequired
  | _ => .emptyControl

/-- What one call of `renderFormFields` produces. -/
inductive RenderTree where
  | nestedJsonEditor : List String → String → Option String → RenderTree
  | fieldGroup : List (String × Bool × FieldControl) → RenderTree
  | single : FieldControl → RenderTree

/-- The object value read defensively from the current value
(`(currentValue as Record<string, JsonValue>) || \x7b\x7d`). -/
def jsObjectFields (v : Option JsonValue) : List (String × JsonValue) :=
  match v with
  | some (.obj fs) => fs
  | _ => []

/-- `renderFormFields` (source lines 109-196): at or beyond the depth
limit an object- or array-typed node renders a nested raw-text editor
over the serialized sub-value; an object with declared properties renders
one labeled control per property; otherwise a single leaf control. -/
def renderFormFields (schema : JsonSchemaType) (maxDepth : Nat)
    (propSchema : JsonSchemaType) (currentValue : Option JsonValue)
    (path : List String) (depth : Nat) (jsonError : Option String) : RenderTree :=
  if maxDepth ≤ depth ∧ (propSchema.type = "object" ∨ propSchema.type = "array") then
    .nestedJsonEditor path
      (jsonStringify2 (jsCoalesce currentValue (generateDefaultValue propSchema)))
      jsonError
  else if propSchema.type = "object" ∧ propSchema.properties.isSome = true then
    .fieldGroup ((propSchema.properties.getD []).map (fun kv =>
      (kv.1, isFieldRequired schema [kv.1],
        renderFieldInput kv.2 (path ++ [kv.1]) (isFieldRequired schema [kv.1]))))
  else
    .single (renderFieldInput propSchema path (isFieldRequired schema path))

-- Sanity checks of the host-builtin models on concrete inputs
example : jsonStringify2 (.obj [("a", .num ⟨1, 0⟩)]) = "\x7b\n  \"a\": 1\n\x7d" := rfl
example : jsonStringify2 (.num ⟨-15, 1⟩) = "-1.5" := rfl
example : jsonStringify2 (.arr [.num ⟨1, 0⟩, .str ("x")]) = "[\n  1,\n  \"x\"\n]" := rfl
example : jsonStringify2 (.obj []) = "\x7b\x7d" := rfl
example : jsNumber ("") = some ⟨0, 0⟩ := rfl
example : jsNumber ("  42 ") = some ⟨42, 0⟩ := rfl
example : jsNumber ("abc") = none := rfl
example : jsNumber ("-1.5e1") = some ⟨-15, 0⟩ := rfl
example : jsNumber ("0x10") = some ⟨16, 0⟩ := rfl
example : jsNumber ("12a") = none := rfl
example : jsNumber (".5") = some ⟨5, 1⟩ := rfl
example : jsTrim ("  ab ") = "ab" := rfl
example : jsonParse ("1") = .ok (.num (JNum.make 1 0)) := rfl
example : jsonParse ("\x7b\"a\":1\x7d") = .ok (.obj [("a", .num ⟨1, 0⟩)]) := rfl
example : jsonParse ("[1, 2]") = .ok (.arr [.num ⟨1, 0⟩, .num ⟨2, 0⟩]) := rfl
example : jsonParse ("-1.50") = .ok (.num ⟨-15, 1⟩) := rfl
example : jsonParse ("not json") = .error ("Unexpected token in JSON") := rfl
example : jsonParse ("") = .error ("Unexpected end of JSON input") := rfl
example : jsonParse ("1e2") = .ok (.num ⟨100, 0⟩) := rfl
example : jsonParse ("true") = .ok (.bool true) := rfl
example : jsonParse ("\"a\\nb\"") = .ok (.str ("a\nb")) := rfl

/-- A raw-JSON-mode component state with the given buffer, used to state
concrete witnesses. -/
def rawState (raw : String) : ComponentState :=
  { isJsonMode := true, jsonError := none, rawJsonValue := raw,
    nextId := 0, liveTimers := [], timeoutRef := none }

/-- The timer-slot invariant of an instance: either no timer is pending
and the ref is clear, or exactly one timer is pending and the ref holds
its id. -/
def timerInv (st : ComponentState) : Prop :=
  (st.timeoutRef = none ∧ st.liveTimers = []) ∨
  (∃ id t s, st.timeoutRef = some id ∧ st.liveTimers = [(id, t, s)])

/-- Claim C1 is stated with an empty-and-required no-op; the code instead
falls to the `else` branch where the host computes `Number("") = 0`,
which is not NaN, so the value `0` is committed.  This closed computation
exhibits that commit. -/
theorem number_field_edit_counterexample :
    numberFieldOnChange ["age"] true "" =
      { commit := some (["age"], some (.num (JNum.make 0 0))), errorSet := none } ∧
    (numberFieldOnChange ["age"] true "").commit ≠ none := by
  refine ⟨rfl, fun h => ?_⟩
  exact Option.noConfusion h

/-- Claim C1, amended: for a number-typed leaf field, empty text on a
non-required field commits `undefined`; empty text on a required field
commits the number `0` (the host coerces `Number("")` to `0`); non-empty
non-numeric text causes no commit and no error, leaving the last
committed value as the owner's value. -/
theorem number_field_edit_behavior (path : List String) (req : Bool) (val : String) :
    (val = "" → req = false →
      numberFieldOnChange path req val = { commit := some (path, none), errorSet := none }) ∧
    (val = "" → req = true →
      numberFieldOnChange path req val =
        { commit := some (path, some (.num (JNum.make 0 0))), errorSet := none }) ∧
    (val ≠ "" → jsNumber val = none →
      numberFieldOnChange path req val = { commit := none, errorSet := none } ∧
      ∀ ownerValue, applyCommit ownerValue (numberFieldOnChange path req val).commit = ownerValue) := by
  refine ⟨fun h1 h2 => ?_, fun h1 h2 => ?_, fun hne hnan => ?_⟩
  · subst h1; subst h2; rfl
  · subst h1; subst h2; rfl
  · have hc : ¬(val = "" ∧ req = false) := fun h => hne h.1
    have h : numberFieldOnChange path req val = { commit := none, errorSet := none } := by
      simp only [numberFieldOnChange, if_neg hc, hnan]
    exact ⟨h, fun ov => by rw [h]; rfl⟩

/-- Witness for C1's amended theorem at the concrete inputs `""` (with
and without the required flag) and `"abc"`. -/
theorem number_field_edit_witness :
    numberFieldOnChange ["n"] false "" = { commit := some (["n"], none), errorSet := none } ∧
    numberFieldOnChange ["n"] true "" =
      { commit := some (["n"], some (.num (JNum.make 0 0))), errorSet := none } ∧
    numberFieldOnChange ["n"] false "abc" = { commit := none, errorSet := none } ∧
    applyCommit (some (.num (JNum.make 7 0))) (numberFieldOnChange ["n"] false "abc").commit =
      some (.num (JNum.make 7 0)) :=
  ⟨(number_field_edit_behavior ["n"] false "").1 rfl rfl,
   (number_field_edit_behavior ["n"] true "").2.1 rfl rfl,
   ((number_field_edit_behavior ["n"] false "abc").2.2 (by decide) rfl).1,
   ((number_field_edit_behavior ["n"] false "abc").2.2 (by decide) rfl).2
     (some (.num (JNum.make 7 0)))⟩

/-- Claim C5 (code bug): the component registers no effect cleanup, so a
debounce timer pending at teardown is not released.  After an edit at
t = 0 and an immediate unmount, the 300 ms timer is still live, and its
parse-driven `onChange` delivery still reaches the (torn-down) owner. -/
theorem unmount_leaves_timer_pending :
    unmountComponent (jsonEditorOnChange 0 ("123") (initState (scalarSchema ("string")) none)) =
      jsonEditorOnChange 0 ("123") (initState (scalarSchema ("string")) none) ∧
    (unmountComponent (jsonEditorOnChange 0 ("123")
        (initState (scalarSchema ("string")) none))).liveTimers = [(0, 300, "123")] ∧
    deliveredUpdates (unmountComponent (jsonEditorOnChange 0 ("123")
        (initState (scalarSchema ("string")) none))) = [(300, .num (JNum.make 123 0))] ∧
    effectCleanups = [] :=
  ⟨rfl, rfl, rfl, rfl⟩

/-- Claim C6: a commit with an empty path forwards the value itself; with
a non-empty path it forwards the path update's result; and a path-update
failure is caught, logged, and the previous owner value re-forwarded (the
handler is total: no exception escapes). -/
theorem field_change_commit_behavior (value : Option JsonValue) (path : List String)
    (fv : Option JsonValue) :
    (path = [] → handleFieldChange value path fv = (fv, none)) ∧
    (∀ nv, path ≠ [] → updateValueAtPath value path fv = .ok nv →
      handleFieldChange value path fv = (nv, none)) ∧
    (∀ e, updateValueAtPath value path fv = .error e →
      handleFieldChange value path fv = (value, some ("Failed to update form value: " ++ e))) := by
  refine ⟨fun h => ?_, fun nv hne h => ?_, fun e h => ?_⟩
  · subst h; rfl
  · cases path with
    | nil => exact absurd rfl hne
    | cons a rest => simp [handleFieldChange, h]
  · cases path with
    | nil => simp [updateValueAtPath] at h
    | cons a rest => simp [handleFieldChange, h]

/-- Witness for C6 at concrete inputs: an empty-path commit, a successful
one-segment update, and a rejected update into a non-object value. -/
theorem field_change_commit_witness :
    handleFieldChange (some (.num (JNum.make 1 0))) [] (some (.bool true)) =
      (some (.bool true), none) ∧
    handleFieldChange (some (.obj [("a", .num (JNum.make 1 0))])) ["a"]
        (some (.num (JNum.make 2 0))) =
      (some (.obj [("a", .num (JNum.make 2 0))]), none) ∧
    handleFieldChange (some (.str ("x"))) ["a"] (some (.num (JNum.make 2 0))) =
      (some (.str ("x")),
        some ("Failed to update form value: Cannot update a property of a non-object value")) :=
  ⟨(field_change_commit_behavior _ _ _).1 rfl,
   (field_change_commit_behavior _ _ _).2.1 _ (by simp) rfl,
   (field_change_commit_behavior _ _ _).2.2 _ rfl⟩

/-- Claim C7: the structured-capability predicate holds exactly for the
supported scalar types and for object schemas all of whose declared
properties have supported scalar types; any object schema with a nested
object- or array-typed property is not capable. -/
theorem structured_capability_characterization :
    (∀ s : JsonSchemaType, isSimpleObject s = true ↔
      (s.type ∈ supportedTypes ∨
        (s.type = "object" ∧ ∀ p ∈ s.properties.getD [], p.2.type ∈ supportedTypes))) ∧
    (∀ s : JsonSchemaType, ∀ p ∈ s.properties.getD [],
      s.type = "object" → (p.2.type = "object" ∨ p.2.type = "array") →
      isSimpleObject s = false) := by
  constructor
  · intro s
    by_cases h1 : supportedTypes.contains s.type
    · simp only [isSimpleObject, if_pos h1, true_iff]
      exact .inl (by simpa using h1)
    · have h1m : s.type ∉ supportedTypes := by simpa using h1
      by_cases h2 : s.type = "object"
      · have hnn : ¬(s.type ≠ "object") := by simp [h2]
        simp only [isSimpleObject, if_neg h1, if_neg hnn]
        constructor
        · intro hall
          exact .inr ⟨h2, fun p hp => by simpa using List.all_eq_true.mp hall p hp⟩
        · rintro (hmem | ⟨_, hprops⟩)
          · exact absurd hmem h1m
          · exact List.all_eq_true.mpr fun p hp => by simpa using hprops p hp
      · simp [isSimpleObject, if_neg h1, h2, h1m]
  · intro s p hp ht hnested
    have hobj : ¬supportedTypes.contains s.type := by
      rw [ht]; decide
    have hnn : ¬(s.type ≠ "object") := by simp [ht]
    simp only [isSimpleObject, if_neg hobj, if_neg hnn]
    cases hall : (s.properties.getD []).all (fun q => supportedTypes.contains q.2.type) with
    | false => rfl
    | true =>
      exfalso
      have := List.all_eq_true.mp hall p hp
      rcases hnested with h | h <;> rw [h] at this <;> exact absurd this (by decide)

/-- Witness for C7: a flat two-scalar object is capable; adding a nested
object-typed property makes the schema non-capable. -/
theorem structured_capability_witness :
    isSimpleObject (JsonSchemaType.mk ("object")
      (some [("name", scalarSchema ("string")), ("age", scalarSchema ("number"))])
      none none none none) = true ∧
    isSimpleObject (JsonSchemaType.mk ("object")
      (some [("name", scalarSchema ("string")), ("inner", scalarSchema ("object"))])
      none none none none) = false :=
  ⟨(structured_capability_characterization.1 (JsonSchemaType.mk ("object")
      (some [("name", scalarSchema ("string")), ("age", scalarSchema ("number"))])
      none none none none)).mpr (.inr ⟨rfl, by decide⟩),
   structured_capability_characterization.2 (JsonSchemaType.mk ("object")
      (some [("name", scalarSchema ("string")), ("inner", scalarSchema ("object"))])
      none none none none) ("inner", scalarSchema ("object"))
      (List.mem_cons_of_mem _ (List.mem_cons_self _ _)) rfl (.inl rfl)⟩

/-- Claim C8: a field is required exactly when the root schema's
`required` is the boolean `true`, or is a name list containing the last
path segment; and the resolution reads nothing but the root schema's
`required` keyword (so a nested object's own `required` list is never
consulted). -/
theorem required_resolution_characterization :
    (∀ (s : JsonSchemaType) (p : List String), isFieldRequired s p = true ↔
      (s.required = some (.bool true) ∨
        ∃ names last, s.required = some (.names names) ∧
          p.getLast? = some last ∧ last ∈ names)) ∧
    (∀ s1 s2 : JsonSchemaType, ∀ p, s1.required = s2.required →
      isFieldRequired s1 p = isFieldRequired s2 p) := by
  constructor
  · intro s p
    cases hr : s.required with
    | none => simp [isFieldRequired, hr]
    | some req =>
      cases req with
      | bool b => cases b <;> simp [isFieldRequired, hr]
      | names ns =>
        cases hl : p.getLast? with
        | none => simp [isFieldRequired, hr, hl]
        | some last => simp [isFieldRequired, hr, hl]
  · intro s1 s2 p h
    unfold isFieldRequired
    rw [h]

/-- Witness for C8 on the spec's example: `required := ["name"]` marks
`name` required and `age` not. -/
theorem required_resolution_witness :
    isFieldRequired (JsonSchemaType.mk ("object")
      (some [("name", scalarSchema ("string")), ("age", scalarSchema ("number"))])
      (some (.names ["name"])) none none none) ["name"] = true ∧
    isFieldRequired (JsonSchemaType.mk ("object")
      (some [("name", scalarSchema ("string")), ("age", scalarSchema ("number"))])
      (some (.names ["name"])) none none none) ["age"] = false := by
  constructor
  · exact (required_resolution_characterization.1 _ _).mpr
      (.inr ⟨["name"], "name", rfl, rfl, by simp⟩)
  · cases hb : isFieldRequired (JsonSchemaType.mk ("object")
      (some [("name", scalarSchema ("string")), ("age", scalarSchema ("number"))])
      (some (.names ["name"])) none none none) ["age"] with
    | false => rfl
    | true =>
      exfalso
      rcases (required_resolution_characterization.1 _ _).mp hb with h | ⟨ns, last, h1, h2, h3⟩
      · have h' : some (JsonRequired.names ["name"]) = some (.bool true) := h
        exact Option.noConfusion h' fun hh => JsonRequired.noConfusion hh
      · have h1' : some (JsonRequired.names ["name"]) = some (.names ns) := h1
        injection h1' with e1
        injection e1 with e2
        subst e2
        have h2' : some ("age" : String) = some last := h2
        injection h2' with e3
        subst e3
        exact absurd h3 (by decide)

/-- Claim C10: `shouldUseJsonMode` holds exactly for object schemas with
absent or empty `properties`; such schemas are nevertheless
structured-capable (vacuously), so the mode-toggle button is rendered,
while the dedicated effect forces the mode flag to raw-JSON. -/
theorem empty_object_schema_behavior :
    (∀ s : JsonSchemaType, shouldUseJsonMode s = true ↔
      (s.type = "object" ∧ (s.properties = none ∨ s.properties = some []))) ∧
    (∀ s : JsonSchemaType, s.type = "object" → (s.properties = none ∨ s.properties = some []) →
      isSimpleObject s = true ∧ toggleButtonRendered s = true ∧ shouldUseJsonMode s = true ∧
      ∀ m, forceJsonModeEffect s m = true) := by
  have hmode : ∀ s : JsonSchemaType, shouldUseJsonMode s = true ↔
      (s.type = "object" ∧ (s.properties = none ∨ s.properties = some [])) := by
    intro s
    by_cases ht : s.type = "object"
    · cases hp : s.properties with
      | none => simp [shouldUseJsonMode, ht, hp]
      | some props => cases props <;> simp [shouldUseJsonMode, ht, hp]
    · simp [shouldUseJsonMode, ht]
  refine ⟨hmode, fun s ht hp => ?_⟩
  have hsimple : isSimpleObject s = true := by
    have hobj : ¬supportedTypes.contains s.type := by rw [ht]; decide
    have hne : ¬(s.type ≠ "object") := by simp [ht]
    rcases hp with h | h <;> simp [isSimpleObject, if_neg hobj, if_neg hne, h]
  refine ⟨hsimple, ?_, (hmode s).mpr ⟨ht, hp⟩, fun m => ?_⟩
  · simp [toggleButtonRendered, isOnlyJSON, hsimple]
  · cases m <;> simp [forceJsonModeEffect, (hmode s).mpr ⟨ht, hp⟩]

/-- Witness for C10 at the two concrete empty-object schemas (absent and
empty `properties`). -/
theorem empty_object_schema_witness :
    isSimpleObject (scalarSchema ("object")) = true ∧
    toggleButtonRendered (scalarSchema ("object")) = true ∧
    forceJsonModeEffect (scalarSchema ("object")) false = true ∧
    isSimpleObject (JsonSchemaType.mk ("object") (some []) none none none none) = true ∧
    shouldUseJsonMode (JsonSchemaType.mk ("object") (some []) none none none none) = true :=
  ⟨(empty_object_schema_behavior.2 (scalarSchema ("object")) rfl (.inl rfl)).1,
   (empty_object_schema_behavior.2 (scalarSchema ("object")) rfl (.inl rfl)).2.1,
   (empty_object_schema_behavior.2 (scalarSchema ("object")) rfl (.inl rfl)).2.2.2 false,
   (empty_object_schema_behavior.2 (JsonSchemaType.mk ("object") (some []) none none none none)
      rfl (.inr rfl)).1,
   (empty_object_schema_behavior.2 (JsonSchemaType.mk ("object") (some []) none none none none)
      rfl (.inr rfl)).2.2.1⟩

/-- Claim C3: toggling from raw-text mode parses the buffer; success
forwards the parsed value and switches to structured mode, failure sets
the parse error, stays in raw-text mode and forwards nothing. -/
theorem switch_to_form_mode_behavior (schema : JsonSchemaType) (value : Option JsonValue)
    (st : ComponentState) (hm : st.isJsonMode = true) :
    (∀ v, jsonParse st.rawJsonValue = .ok v →
      handleSwitchToFormMode schema value st = ({ st with isJsonMode := false }, [v])) ∧
    (∀ msg, jsonParse st.rawJsonValue = .error msg →
      handleSwitchToFormMode schema value st = ({ st with jsonError := some msg }, []) ∧
      (handleSwitchToFormMode schema value st).1.isJsonMode = true) := by
  constructor
  · intro v h
    simp [handleSwitchToFormMode, hm, h]
  · intro msg h
    refine ⟨by simp [handleSwitchToFormMode, hm, h], ?_⟩
    simp [handleSwitchToFormMode, hm, h]

/-- Witness for C3 at a parsable and an unparsable buffer. -/
theorem switch_to_form_mode_witness :
    handleSwitchToFormMode (scalarSchema ("object")) none (rawState ("\x7b\"a\":1\x7d")) =
      ({ rawState ("\x7b\"a\":1\x7d") with isJsonMode := false },
        [.obj [("a", .num (JNum.make 1 0))]]) ∧
    handleSwitchToFormMode (scalarSchema ("object")) none (rawState ("not json")) =
      ({ rawState ("not json") with jsonError := some ("Unexpected token in JSON") }, []) :=
  ⟨(switch_to_form_mode_behavior (scalarSchema ("object")) none
      (rawState ("\x7b\"a\":1\x7d")) rfl).1 (.obj [("a", .num (JNum.make 1 0))]) rfl,
   ((switch_to_form_mode_behavior (scalarSchema ("object")) none
      (rawState ("not json")) rfl).2 ("Unexpected token in JSON") rfl).1⟩

/-- Claim C4: `formatJson` is a no-op on a blank (trimmed) buffer; on a
parsable buffer it replaces the buffer by the two-space re-serialization,
clears the error and forwards the result through the debounced path; on
an unparsable buffer it sets the parse error and leaves the buffer
untouched. -/
theorem format_json_behavior (now : Nat) (st : ComponentState) :
    (jsTrim st.rawJsonValue = "" → formatJson now st = st) ∧
    (∀ v, jsonParse (jsTrim st.rawJsonValue) = .ok v →
      formatJson now st =
        { debouncedUpdateParent now (jsonStringify2 v)
            { st with rawJsonValue := jsonStringify2 v } with jsonError := none } ∧
      (formatJson now st).rawJsonValue = jsonStringify2 v ∧
      (formatJson now st).jsonError = none ∧
      (formatJson now st).timeoutRef = some st.nextId ∧
      (formatJson now st).liveTimers.getLast? =
        some (st.nextId, now + 300, jsonStringify2 v)) ∧
    (∀ msg, jsTrim st.rawJsonValue ≠ "" → jsonParse (jsTrim st.rawJsonValue) = .error msg →
      formatJson now st = { st with jsonError := some msg } ∧
      (formatJson now st).rawJsonValue = st.rawJsonValue) := by
  refine ⟨fun h => by simp [formatJson, h], fun v h => ?_, fun msg hne h => ?_⟩
  · have hne : jsTrim st.rawJsonValue ≠ "" := by
      intro heq
      rw [heq] at h
      exact Except.noConfusion h
    have hmain : formatJson now st =
        { debouncedUpdateParent now (jsonStringify2 v)
            { st with rawJsonValue := jsonStringify2 v } with jsonError := none } := by
      simp [formatJson, if_neg hne, h]
    refine ⟨hmain, ?_, ?_, ?_, ?_⟩ <;> rw [hmain] <;>
      simp [debouncedUpdateParent, List.getLast?_concat]
  · have hmain : formatJson now st = { st with jsonError := some msg } := by
      simp [formatJson, if_neg hne, h]
    exact ⟨hmain, by rw [hmain]⟩

/-- Witness for C4: the spec's concrete example (`\x7ba:1\x7d` reformats to the
indented form and schedules the debounced forward), a blank buffer, and
an unparsable buffer. -/
theorem format_json_witness :
    formatJson 0 (rawState ("  ")) = rawState ("  ") ∧
    (formatJson 5 (rawState ("\x7b\"a\":1\x7d"))).rawJsonValue = "\x7b\n  \"a\": 1\n\x7d" ∧
    (formatJson 5 (rawState ("\x7b\"a\":1\x7d"))).jsonError = none ∧
    (formatJson 5 (rawState ("\x7b\"a\":1\x7d"))).liveTimers.getLast? =
      some (0, 305, "\x7b\n  \"a\": 1\n\x7d") ∧
    formatJson 0 (rawState ("not json")) =
      { rawState ("not json") with jsonError := some ("Unexpected token in JSON") } :=
  ⟨(format_json_behavior 0 (rawState ("  "))).1 rfl,
   ((format_json_behavior 5 (rawState ("\x7b\"a\":1\x7d"))).2.1
      (.obj [("a", .num (JNum.make 1 0))]) rfl).2.1,
   ((format_json_behavior 5 (rawState ("\x7b\"a\":1\x7d"))).2.1
      (.obj [("a", .num (JNum.make 1 0))]) rfl).2.2.1,
   ((format_json_behavior 5 (rawState ("\x7b\"a\":1\x7d"))).2.1
      (.obj [("a", .num (JNum.make 1 0))]) rfl).2.2.2.2,
   ((format_json_behavior 0 (rawState ("not json"))).2.2
      ("Unexpected token in JSON") (by decide) rfl).1⟩

/-- Claim C9: at or beyond the depth limit, an object- or array-typed
node renders the nested raw-text editor over the serialized sub-value at
the node's path, and that editor's edit handler commits a successful
parse through the path-based update (clearing the shared error) while a
failed parse only sets the shared error. -/
theorem depth_limit_behavior (schema : JsonSchemaType) (maxDepth : Nat)
    (propSchema : JsonSchemaType) (currentValue : Option JsonValue)
    (path : List String) (depth : Nat) (jsonError : Option String)
    (hd : maxDepth ≤ depth) (ht : propSchema.type = "object" ∨ propSchema.type = "array") :
    renderFormFields schema maxDepth propSchema currentValue path depth jsonError =
      .nestedJsonEditor path
        (jsonStringify2 (jsCoalesce currentValue (generateDefaultValue propSchema)))
        jsonError ∧
    (∀ s v, jsonParse s = .ok v →
      nestedEditorOnChange path s = { commit := some (path, some v), errorSet := some none }) ∧
    (∀ s msg, jsonParse s = .error msg →
      nestedEditorOnChange path s = { commit := none, errorSet := some (some msg) }) := by
  refine ⟨?_, fun s v h => ?_, fun s msg h => ?_⟩
  · unfold renderFormFields
    rw [if_pos ⟨hd, ht⟩]
  · simp [nestedEditorOnChange, h]
  · simp [nestedEditorOnChange, h]

/-- Witness for C9 with `maxDepth = 1` at depth 1: the nested editor
appears with the serialized sub-value, and its handler commits a parse
success at the nested path and refuses a parse failure. -/
theorem depth_limit_witness :
    renderFormFields (scalarSchema ("string")) 1 (scalarSchema ("object"))
        (some (.obj [("x", .num (JNum.make 1 0))])) ["sub"] 1 none =
      .nestedJsonEditor ["sub"] ("\x7b\n  \"x\": 1\n\x7d") none ∧
    nestedEditorOnChange ["sub"] ("[1]") =
      { commit := some (["sub"], some (.arr [.num (JNum.make 1 0)])),
        errorSet := some none } ∧
    nestedEditorOnChange ["sub"] ("oops") =
      { commit := none, errorSet := some (some ("Unexpected token in JSON")) } :=
  ⟨(depth_limit_behavior (scalarSchema ("string")) 1 (scalarSchema ("object"))
      (some (.obj [("x", .num (JNum.make 1 0))])) ["sub"] 1 none (Nat.le_refl 1)
      (.inl rfl)).1,
   (depth_limit_behavior (scalarSchema ("string")) 1 (scalarSchema ("object"))
      (some (.obj [("x", .num (JNum.make 1 0))])) ["sub"] 1 none (Nat.le_refl 1)
      (.inl rfl)).2.1 ("[1]") (.arr [.num (JNum.make 1 0)]) rfl,
   (depth_limit_behavior (scalarSchema ("string")) 1 (scalarSchema ("object"))
      (some (.obj [("x", .num (JNum.make 1 0))])) ["sub"] 1 none (Nat.le_refl 1)
      (.inl rfl)).2.2 ("oops") ("Unexpected token in JSON") rfl⟩

/-- A debounced update replaces whatever timer was pending by a single
new one that fires 300 ms later with the given payload. -/
theorem debounced_schedules (now : Nat) (s : String) (st : ComponentState)
    (h : timerInv st) :
    (debouncedUpdateParent now s st).liveTimers = [(st.nextId, now + 300, s)] ∧
    (debouncedUpdateParent now s st).timeoutRef = some st.nextId := by
  rcases h with ⟨h1, h2⟩ | ⟨id, t, p, h1, h2⟩ <;>
    simp [debouncedUpdateParent, h1, h2, clearTimeoutTimers]

/-- A raw-text edit preserves the timer-slot invariant. -/
theorem jsonEditorOnChange_inv (now : Nat) (s : String) (st : ComponentState)
    (h : timerInv st) : timerInv (jsonEditorOnChange now s st) := by
  have h' : timerInv { st with rawJsonValue := s } := h
  have hs := debounced_schedules now s { st with rawJsonValue := s } h'
  exact .inr ⟨st.nextId, now + 300, s, hs.2, hs.1⟩

/-- Processing an edit sequence keeps the invariant, and the pending
timer after a non-empty sequence carries the last edit's text with a fire
time 300 ms past the last edit. -/
theorem processEdits_spec (edits : List (Nat × String)) (st : ComponentState)
    (h : timerInv st) :
    timerInv (processEdits edits st) ∧
    ∀ tl sl, edits.getLast? = some (tl, sl) →
      ∃ id, (processEdits edits st).liveTimers = [(id, tl + 300, sl)] := by
  induction edits generalizing st with
  | nil => exact ⟨h, fun tl sl hh => Option.noConfusion hh⟩
  | cons e rest ih =>
    obtain ⟨t1, s1⟩ := e
    have hstep : timerInv (jsonEditorOnChange t1 s1 st) :=
      jsonEditorOnChange_inv t1 s1 st h
    obtain ⟨hinv, hlast⟩ := ih (jsonEditorOnChange t1 s1 st) hstep
    refine ⟨hinv, fun tl sl hh => ?_⟩
    cases rest with
    | nil =>
      have he : (t1, s1) = (tl, sl) := by simpa using hh
      injection he with he1 he2
      subst he1
      subst he2
      have hs := debounced_schedules t1 s1 { st with rawJsonValue := s1 } h
      exact ⟨st.nextId, by simpa [processEdits, jsonEditorOnChange] using hs.1⟩
    | cons e2 rest2 =>
      exact hlast tl sl (by simpa [List.getLast?_cons_cons] using hh)

/-- Claim C2: every debounced update cancels the pending timer and
schedules the parse 300 ms ahead, so at most one parse timer is pending
per instance; after any edit sequence the sole pending timer carries the
last edit's text, fires no earlier than 300 ms after that edit, and
delivers at most one parse-driven update to the owner (none when the
final text does not parse). -/
theorem debounce_contract :
    (∀ (st : ComponentState) (now : Nat) (s : String), timerInv st →
      (debouncedUpdateParent now s st).liveTimers = [(st.nextId, now + 300, s)] ∧
      (debouncedUpdateParent now s st).timeoutRef = some st.nextId) ∧
    (∀ (schema : JsonSchemaType) (value : Option JsonValue) (edits : List (Nat × String)),
      (processEdits edits (initState schema value)).liveTimers.length ≤ 1) ∧
    (∀ (schema : JsonSchemaType) (value : Option JsonValue) (edits : List (Nat × String))
      (tl : Nat) (sl : String), edits.getLast? = some (tl, sl) →
      ∃ id, (processEdits edits (initState schema value)).liveTimers = [(id, tl + 300, sl)] ∧
        deliveredUpdates (processEdits edits (initState schema value)) =
          (match jsonParse sl with
            | .ok v => [(tl + 300, v)]
            | .error _ => [])) := by
  have hinit : ∀ (schema : JsonSchemaType) (value : Option JsonValue),
      timerInv (initState schema value) := fun _ _ => .inl ⟨rfl, rfl⟩
  refine ⟨fun st now s h => debounced_schedules now s st h, fun schema value edits => ?_,
    fun schema value edits tl sl hh => ?_⟩
  · rcases (processEdits_spec edits (initState schema value) (hinit schema value)).1 with
      ⟨_, h2⟩ | ⟨id, t, p, _, h2⟩ <;> simp [h2]
  · obtain ⟨id, hlive⟩ :=
      (processEdits_spec edits (initState schema value) (hinit schema value)).2 tl sl hh
    refine ⟨id, hlive, ?_⟩
    cases hp : jsonParse sl <;> simp [deliveredUpdates, hlive, hp]

/-- Witness for C2: edits at t = 0 and t = 100; one timer remains, firing
at t = 400 with the later text, and the owner receives exactly the one
update parsed from it. -/
theorem debounce_contract_witness :
    ∃ id, (processEdits [(0, "1"), (100, "2")]
        (initState (scalarSchema ("string")) none)).liveTimers = [(id, 400, "2")] ∧
      deliveredUpdates (processEdits [(0, "1"), (100, "2")]
        (initState (scalarSchema ("string")) none)) = [(400, .num (JNum.make 2 0))] := by
  obtain ⟨id, h1, h2⟩ := debounce_contract.2.2 (scalarSchema ("string")) none
    [(0, "1"), (100, "2")] 100 ("2") rfl
  exact ⟨id, h1, h2.trans rfl⟩
